import Mathlib

/-!
Shallow embedding of the core pipeline of `src/watcher.py` (PodPing watcher):
time-windowed URL deduplication (`should_process_url`, `clean_old_urls`),
batch flushing to the downstream collector (`flush_urls`), the flush trigger
condition, the admission filter from the stream loop, the URL extractor
(`process_podping`'s extraction phase) and the reconnect backoff of `run`.

Time is modelled as `Int` (seconds); the Python dict `recent_url_times` is an
association list with unique keys maintained by insert-with-erase; HTTP
delivery outcomes are an explicit inductive so `flush_urls` is a pure function
of the outcome.
-/

/-- Default of env var `BATCH_SIZE` (watcher.py line 34). -/
def BATCH_SIZE : Nat := 50

/-- Default of env var `BATCH_TIMEOUT` in seconds (watcher.py line 35). -/
def BATCH_TIMEOUT : Int := 3

/-- Default of env var `DEDUPE_WINDOW` in seconds (watcher.py line 36). -/
def DEDUPE_WINDOW : Int := 30

/-- The fixed watched-tag list (watcher.py line 53). -/
def WATCHED_OPERATION_IDS : List String := ["podping", "pp_", "pplt_"]

/-- The hardcoded fallback allow-list returned by
`PodPingWatcher.get_allowed_accounts` (watcher.py lines 118-130). -/
def get_allowed_accounts : List String :=
  ["podping", "podping.aaa", "podping.bbb",
   "podping.ccc", "podping.ddd", "podping.eee",
   "podping.fff", "podping.ggg", "podping.hhh",
   "hivehydra", "podstation", "podping-bbb",
   "podping-ccc", "podping-ddd", "podping-eee",
   "podping-fff", "podping-ggg"]

/-- State touched by the dedup check: the `recent_url_times` dict
(URL to last-seen timestamp) and the `deduped` stats counter. -/
structure DedupState where
  recent_url_times : List (String × Int)
  deduped : Nat
deriving Repr, DecidableEq

/-- `clean_old_urls` (watcher.py lines 132-143): drop every entry whose
timestamp is strictly below `now - W` (i.e. keep those with
`now - W ≤ timestamp`), for dedup window `W`. -/
def clean_old_urls (W : Int) (m : List (String × Int)) (now : Int) :
    List (String × Int) :=
  m.filter fun p => decide (now - W ≤ p.2)

/-- Python dict assignment `m[url] = t`: the new binding replaces any
existing one for the same key. -/
def dictInsert (m : List (String × Int)) (url : String) (t : Int) :
    List (String × Int) :=
  (url, t) :: m.filter fun p => p.1 != url

/-- The map `should_process_url` actually consults: `recent_url_times`, after
the opportunistic cleanup that fires when the table holds more than 2000
entries (watcher.py lines 149-151). -/
def effective_recent (W : Int) (s : DedupState) (now : Int) :
    List (String × Int) :=
  if 2000 < s.recent_url_times.length then
    clean_old_urls W s.recent_url_times now
  else
    s.recent_url_times

/-- `PodPingWatcher.should_process_url` (watcher.py lines 145-162) with dedup
window `W`: reject (and count) a URL last admitted within `W` of `now`,
otherwise record `now` as its last-seen time and admit. -/
def should_process_url (W : Int) (s : DedupState) (url : String) (now : Int) :
    Bool × DedupState :=
  let m := effective_recent W s now
  match List.lookup url m with
  | some last_seen =>
      if now - last_seen < W then
        (false, { recent_url_times := m, deduped := s.deduped + 1 })
      else
        (true, { recent_url_times := dictInsert m url now,
                 deduped := s.deduped })
  | none =>
      (true, { recent_url_times := dictInsert m url now,
               deduped := s.deduped })

/-- `list(dict.fromkeys(buffer))` (watcher.py line 226): keep the first
occurrence of each URL, in order; `seen` is the set of keys already kept. -/
def fromKeysAux : List String → List String → List String
  | [], _ => []
  | x :: xs, seen =>
      if x ∈ seen then fromKeysAux xs seen
      else x :: fromKeysAux xs (x :: seen)

/-- The de-duplicated batch handed to the HTTP POST (watcher.py line 226). -/
def uniqueUrls (l : List String) : List String := fromKeysAux l []

/-- Specification-side first-occurrence dedup: keep the head, erase its later
occurrences, recurse. Used to state that `uniqueUrls` keeps first
occurrences in order. -/
def firstOccurrences : List String → List String
  | [] => []
  | x :: xs => x :: (firstOccurrences xs).filter fun y => y != x

/-- Terminal outcome of the HTTP POST in `flush_urls`: a terminal response
status, `requests.exceptions.Timeout`, or another
`requests.exceptions.RequestException` (connection-level failure). -/
inductive DeliveryResult where
  | response (status : Nat)
  | timeout
  | requestError
deriving Repr, DecidableEq

/-- State touched by `flush_urls`: the pending buffer, the `sent` and
`errors` counters and `last_flush_time`. -/
structure FlushState where
  url_buffer : List String
  sent : Nat
  errors : Nat
  last_flush_time : Int
deriving Repr, DecidableEq

/-- `PodPingWatcher.flush_urls` (watcher.py lines 220-259), as a pure function
of the delivery outcome `r` at time `now`. Returns the new state and the
batch POSTed (`none` when the buffer was empty and no request was made).
Status 200 counts the unique batch as sent and clears the buffer; any other
status, and a timeout, increment `errors` and clear the buffer; a
connection-level `RequestException` increments `errors` and truncates the
buffer to its most recent 100 entries when it holds more than 100. Every
path that made a request resets `last_flush_time` to `now` (the `finally`
block). -/
def flush_urls (s : FlushState) (now : Int) (r : DeliveryResult) :
    FlushState × Option (List String) :=
  if s.url_buffer = [] then (s, none)
  else
    let unique_urls := uniqueUrls s.url_buffer
    let batch_size := unique_urls.length
    let s1 :=
      match r with
      | .response status =>
          if status = 200 then
            { s with sent := s.sent + batch_size, url_buffer := [] }
          else
            { s with errors := s.errors + 1, url_buffer := [] }
      | .timeout =>
          { s with errors := s.errors + 1, url_buffer := [] }
      | .requestError =>
          { s with errors := s.errors + 1,
                   url_buffer :=
                     if 100 < s.url_buffer.length then
                       s.url_buffer.drop (s.url_buffer.length - 100)
                     else s.url_buffer }
    ({ s1 with last_flush_time := now }, some unique_urls)

/-- The flush trigger of `process_podping` (watcher.py lines 210-212):
buffer length at least `batch_size`, or elapsed time since the last flush
strictly greater than `batch_timeout`. -/
def flush_trigger (batch_size : Nat) (batch_timeout : Int)
    (buffer_len : Nat) (now last_flush_time : Int) : Bool :=
  decide (batch_size ≤ buffer_len) ||
  decide (batch_timeout < now - last_flush_time)

/-- The periodic flush trigger of the stream loop (watcher.py lines 361-363):
elapsed time only. -/
def periodic_flush_due (batch_timeout : Int) (now last_flush_time : Int) :
    Bool :=
  decide (batch_timeout < now - last_flush_time)

/-- Python's `str.startswith`, modelled structurally on the character
sequence of the string (so that the kernel can evaluate it on literals). -/
def str_startswith (s p : String) : Bool :=
  p.data.isPrefixOf s.data

/-- The admission filter of the stream loop (watcher.py lines 355-358): the
operation id is an exact member of `WATCHED_OPERATION_IDS` or starts with
"pp", and the (nonempty) posting-authority list has its first entry in the
allow-list. -/
def is_relevant (operation_id : String)
    (required_posting_auths allowed_accounts : List String) : Bool :=
  (WATCHED_OPERATION_IDS.contains operation_id ||
     str_startswith operation_id "pp") &&
  (match required_posting_auths with
   | [] => false
   | a :: _ => allowed_accounts.contains a)

/-- JSON values as `process_podping` distinguishes them: Python strings,
Python lists, and everything else (numbers, dicts, booleans, null), which
both `isinstance` checks reject. -/
inductive JVal where
  | jstr (s : String)
  | jlist (items : List JVal)
  | jother

/-- The scheme check of watcher.py line 201:
`url.startswith(("http://", "https://"))`. -/
def is_valid_url (s : String) : Bool :=
  str_startswith s "http://" || str_startswith s "https://"

/-- Candidates contributed by the "urls" field (watcher.py lines 172-178):
a list is spliced in whole, a single string is one candidate, anything else
contributes nothing. -/
def urls_field_candidates : Option JVal → List JVal
  | some (.jlist xs) => xs
  | some (.jstr s) => [.jstr s]
  | _ => []

/-- Candidates contributed by the "url" field (watcher.py lines 180-184):
only a truthy (nonempty) string contributes. -/
def url_field_candidates : Option JVal → List JVal
  | some (.jstr s) => if s = "" then [] else [.jstr s]
  | _ => []

/-- Candidates contributed by the "iris" field (watcher.py lines 186-190):
only a list contributes; a bare string iris value is ignored. -/
def iris_field_candidates : Option JVal → List JVal
  | some (.jlist xs) => xs
  | _ => []

/-- The raw candidate sequence built by `process_podping` before the
per-candidate string and scheme checks, in source order: "urls" then "url"
then "iris". The decoded JSON object is an association list. -/
def field_candidates (json_data : List (String × JVal)) : List JVal :=
  urls_field_candidates (List.lookup "urls" json_data) ++
  url_field_candidates (List.lookup "url" json_data) ++
  iris_field_candidates (List.lookup "iris" json_data)

/-- The URLs `process_podping` extracts from a decoded payload (watcher.py
lines 164-202): each string candidate that passes the scheme check, in
order; non-string candidates are skipped. -/
def extract_urls (json_data : List (String × JVal)) : List String :=
  (field_candidates json_data).filterMap fun v =>
    match v with
    | .jstr s => if is_valid_url s then some s else none
    | _ => none

/-- `max_reconnect_attempts` (watcher.py line 334). -/
def max_reconnect_attempts : Nat := 5

/-- What the stream-error handler decides: give up, or sleep and retry with
the given start cursor. -/
inductive ReconnectAction where
  | failed
  | retry (sleep_seconds : Nat) (start_block : Option Nat)
deriving Repr, DecidableEq

/-- The stream-error handler of `run` (watcher.py lines 370-384): increment
the consecutive-error count; once it reaches `max_reconnect_attempts`,
re-raise (give up); otherwise sleep `5 * attempts` seconds and reconnect
with `start_block = None`, i.e. from the fresh current position with no
lookback. `reconnect_attempts` is the count before this error. -/
def reconnect_step (reconnect_attempts : Nat) : ReconnectAction :=
  let attempts := reconnect_attempts + 1
  if max_reconnect_attempts ≤ attempts then .failed
  else .retry (5 * attempts) none

theorem fromKeysAux_eq (l : List String) :
    ∀ seen, fromKeysAux l seen
      = (firstOccurrences l).filter fun y => decide (y ∉ seen) := by
  induction l with
  | nil => intro seen; simp [fromKeysAux, firstOccurrences]
  | cons x xs ih =>
      intro seen
      show (if x ∈ seen then fromKeysAux xs seen
            else x :: fromKeysAux xs (x :: seen))
          = List.filter (fun y => decide (y ∉ seen))
              (x :: List.filter (fun y => y != x) (firstOccurrences xs))
      rw [List.filter_cons, List.filter_filter]
      by_cases hx : x ∈ seen
      · rw [if_pos hx, if_neg (by simpa using hx), ih seen]
        refine List.filter_congr ?_
        intro y _
        by_cases hy : y ∈ seen
        · simp [hy]
        · have hyx : y ≠ x := fun h => hy (h ▸ hx)
          simp [hy, hyx]
      · rw [if_neg hx, if_pos (show decide (x ∉ seen) = true by simp [hx]),
          ih (x :: seen)]
        refine congrArg (x :: ·) (List.filter_congr ?_)
        intro y _
        by_cases hy : y ∈ seen
        · simp [hy]
        · by_cases hyx : y = x <;> simp [hy, hyx]

theorem uniqueUrls_eq_firstOccurrences (l : List String) :
    uniqueUrls l = firstOccurrences l := by
  simpa using fromKeysAux_eq l []

theorem firstOccurrences_nodup (l : List String) :
    (firstOccurrences l).Nodup := by
  induction l with
  | nil => simp [firstOccurrences]
  | cons x xs ih =>
      refine List.Nodup.cons ?_ (List.Nodup.filter _ ih)
      intro hx
      have := List.mem_filter.mp hx
      simp at this

/-- C2: every flush hands the delivery POST the pending buffer de-duplicated
to first occurrences: the batch has no duplicate URLs and lists the buffered
URLs in order of first occurrence, even when a URL was appended several
times between flushes. -/
theorem flush_batch_nodup_first (s : FlushState) (now : Int) (r : DeliveryResult)
    (h : s.url_buffer ≠ []) :
    (flush_urls s now r).2 = some (uniqueUrls s.url_buffer) ∧
    (uniqueUrls s.url_buffer).Nodup ∧
    uniqueUrls s.url_buffer = firstOccurrences s.url_buffer := by
  refine ⟨?_, ?_, uniqueUrls_eq_firstOccurrences _⟩
  · cases r with
    | response st => by_cases h200 : st = 200 <;> simp [flush_urls, h, h200]
    | timeout => simp [flush_urls, h]
    | requestError => simp [flush_urls, h]
  · rw [uniqueUrls_eq_firstOccurrences]; exact firstOccurrences_nodup _

/-- Witness for C2 at a concrete buffer holding a repeated URL. -/
theorem flush_batch_nodup_first_witness :
    (flush_urls ⟨["http://a.com", "http://b.com", "http://a.com"], 0, 0, 0⟩ 5
        (.response 200)).2
      = some (uniqueUrls ["http://a.com", "http://b.com", "http://a.com"]) ∧
    (uniqueUrls ["http://a.com", "http://b.com", "http://a.com"]).Nodup ∧
    uniqueUrls ["http://a.com", "http://b.com", "http://a.com"]
      = firstOccurrences ["http://a.com", "http://b.com", "http://a.com"] :=
  flush_batch_nodup_first ⟨["http://a.com", "http://b.com", "http://a.com"], 0, 0, 0⟩
    5 (.response 200) (by simp)

/-- C10: a flush attempt with an empty pending buffer is a complete no-op --
no request is made and the state (counters and last-flush timestamp
included) is returned unchanged; with a nonempty buffer a request is made
and the last-flush timestamp is set to the current time. -/
theorem flush_urls_empty_noop (s : FlushState) (now : Int) (r : DeliveryResult) :
    (s.url_buffer = [] → flush_urls s now r = (s, none)) ∧
    (s.url_buffer ≠ [] →
      (flush_urls s now r).2.isSome = true ∧
      (flush_urls s now r).1.last_flush_time = now) := by
  refine ⟨fun h => by simp [flush_urls, h], fun h => ?_⟩
  cases r with
  | response st => by_cases h200 : st = 200 <;> simp [flush_urls, h, h200]
  | timeout => simp [flush_urls, h]
  | requestError => simp [flush_urls, h]

/-- C5 (amended): on every failed delivery the errors counter is incremented
and the last-flush timestamp is reset; a non-200 terminal response AND a
request timeout both clear the buffer entirely, while only a
connection-level request failure retains up to the most recent 100 buffered
URLs (in order) for the next attempt. -/
theorem flush_failure_policy (s : FlushState) (now : Int)
    (h : s.url_buffer ≠ []) :
    (∀ status, status ≠ 200 →
        (flush_urls s now (.response status)).1.url_buffer = [] ∧
        (flush_urls s now (.response status)).1.errors = s.errors + 1 ∧
        (flush_urls s now (.response status)).1.last_flush_time = now) ∧
    ((flush_urls s now .timeout).1.url_buffer = [] ∧
     (flush_urls s now .timeout).1.errors = s.errors + 1 ∧
     (flush_urls s now .timeout).1.last_flush_time = now) ∧
    ((flush_urls s now .requestError).1.url_buffer
        = s.url_buffer.drop (s.url_buffer.length - 100) ∧
     (flush_urls s now .requestError).1.url_buffer.length ≤ 100 ∧
     (flush_urls s now .requestError).1.errors = s.errors + 1 ∧
     (flush_urls s now .requestError).1.last_flush_time = now) := by
  have hdrop : (if 100 < s.url_buffer.length then
        s.url_buffer.drop (s.url_buffer.length - 100)
      else s.url_buffer)
      = s.url_buffer.drop (s.url_buffer.length - 100) := by
    split
    · rfl
    · rw [Nat.sub_eq_zero_of_le (by omega), List.drop_zero]
  refine ⟨fun status hst => by simp [flush_urls, h, hst], by simp [flush_urls, h], ?_⟩
  refine ⟨by simp [flush_urls, h, hdrop], ?_, by simp [flush_urls, h], by simp [flush_urls, h]⟩
  simp only [flush_urls, h, if_neg h]
  simp [hdrop, List.length_drop]
  omega

/-- Witness for C5 at a concrete one-element buffer. -/
theorem flush_failure_policy_witness :
    (∀ status, status ≠ 200 →
        (flush_urls ⟨["http://a.com"], 2, 3, 0⟩ 7 (.response status)).1.url_buffer = [] ∧
        (flush_urls ⟨["http://a.com"], 2, 3, 0⟩ 7 (.response status)).1.errors = 3 + 1 ∧
        (flush_urls ⟨["http://a.com"], 2, 3, 0⟩ 7 (.response status)).1.last_flush_time = 7) ∧
    ((flush_urls ⟨["http://a.com"], 2, 3, 0⟩ 7 .timeout).1.url_buffer = [] ∧
     (flush_urls ⟨["http://a.com"], 2, 3, 0⟩ 7 .timeout).1.errors = 3 + 1 ∧
     (flush_urls ⟨["http://a.com"], 2, 3, 0⟩ 7 .timeout).1.last_flush_time = 7) ∧
    ((flush_urls ⟨["http://a.com"], 2, 3, 0⟩ 7 .requestError).1.url_buffer
        = ["http://a.com"].drop (["http://a.com"].length - 100) ∧
     (flush_urls ⟨["http://a.com"], 2, 3, 0⟩ 7 .requestError).1.url_buffer.length ≤ 100 ∧
     (flush_urls ⟨["http://a.com"], 2, 3, 0⟩ 7 .requestError).1.errors = 3 + 1 ∧
     (flush_urls ⟨["http://a.com"], 2, 3, 0⟩ 7 .requestError).1.last_flush_time = 7) :=
  flush_failure_policy ⟨["http://a.com"], 2, 3, 0⟩ 7 (by simp)

/-- Counterexample to C5 as stated: a request timeout is a network-level
failure, yet the code clears the buffer entirely instead of retaining the
most recent URLs (here one URL, well under 100, which retention would have
kept). -/
theorem flush_timeout_clears_cex :
    (flush_urls ⟨["http://a.com/feed"], 0, 0, 0⟩ 5 .timeout).1.url_buffer = [] ∧
    (["http://a.com/feed"] : List String) ≠ [] := by
  constructor
  · simp [flush_urls]
  · simp

/-- C6 (amended): a delivery is reported as success exactly when the terminal
response status equals 200: then the sent counter increases by the batch
size and the buffer is cleared without touching errors; every other status
-- other 2xx statuses included -- increments errors, leaves sent unchanged
and clears the buffer. The response body is never consulted. -/
theorem flush_success_only_200 (s : FlushState) (now : Int) (status : Nat)
    (h : s.url_buffer ≠ []) :
    (status = 200 →
        (flush_urls s now (.response status)).1.sent
            = s.sent + (uniqueUrls s.url_buffer).length ∧
        (flush_urls s now (.response status)).1.errors = s.errors ∧
        (flush_urls s now (.response status)).1.url_buffer = []) ∧
    (status ≠ 200 →
        (flush_urls s now (.response status)).1.sent = s.sent ∧
        (flush_urls s now (.response status)).1.errors = s.errors + 1 ∧
        (flush_urls s now (.response status)).1.url_buffer = []) := by
  constructor
  · intro h200; simp [flush_urls, h, h200]
  · intro h200; simp [flush_urls, h, h200]

/-- Witness for C6 at a concrete one-element buffer and status 200. -/
theorem flush_success_only_200_witness :
    ((200 : Nat) = 200 →
        (flush_urls ⟨["http://a.com"], 2, 3, 0⟩ 7 (.response 200)).1.sent
            = 2 + (uniqueUrls ["http://a.com"]).length ∧
        (flush_urls ⟨["http://a.com"], 2, 3, 0⟩ 7 (.response 200)).1.errors = 3 ∧
        (flush_urls ⟨["http://a.com"], 2, 3, 0⟩ 7 (.response 200)).1.url_buffer = []) ∧
    ((200 : Nat) ≠ 200 →
        (flush_urls ⟨["http://a.com"], 2, 3, 0⟩ 7 (.response 200)).1.sent = 2 ∧
        (flush_urls ⟨["http://a.com"], 2, 3, 0⟩ 7 (.response 200)).1.errors = 3 + 1 ∧
        (flush_urls ⟨["http://a.com"], 2, 3, 0⟩ 7 (.response 200)).1.url_buffer = []) :=
  flush_success_only_200 ⟨["http://a.com"], 2, 3, 0⟩ 7 200 (by simp)

/-- Counterexample to C6 as stated: status 201 is a 2xx status, yet the code
treats it as a failure -- errors is incremented and sent left unchanged. -/
theorem flush_2xx_not_success_cex :
    ((200 : Nat) ≤ 201 ∧ (201 : Nat) < 300) ∧
    (flush_urls ⟨["http://a.com/feed"], 0, 0, 0⟩ 5 (.response 201)).1.errors = 1 ∧
    (flush_urls ⟨["http://a.com/feed"], 0, 0, 0⟩ 5 (.response 201)).1.sent = 0 := by
  refine ⟨by omega, ?_, ?_⟩ <;> simp [flush_urls]

/-- C3: the flush trigger of the ingest path fires exactly when the pending
count has reached the batch size or strictly more than the batch timeout
has elapsed since the last flush; the stream loop's periodic trigger (time
clause only) implies it; with a timeout of 3 seconds and fewer than
batch-size URLs pending, a flush fires once more than 3 seconds have
elapsed and not before. -/
theorem flush_trigger_iff (bs : Nat) (bt : Int) (len : Nat) (now lf : Int) :
    (flush_trigger bs bt len now lf = true ↔ bs ≤ len ∨ bt < now - lf) ∧
    (periodic_flush_due bt now lf = true → flush_trigger bs bt len now lf = true) ∧
    (len < bs → (flush_trigger bs 3 len now lf = true ↔ 3 < now - lf)) := by
  refine ⟨by simp [flush_trigger], ?_, ?_⟩
  · intro h
    simp [periodic_flush_due] at h
    simp [flush_trigger, h]
  · intro hlen
    simp [flush_trigger]
    omega

/-- C4 (amended): the admission filter accepts an event exactly when its
operation id is an exact member of the watched-tag set or starts with "pp",
and the authority list is nonempty with its first entry in the allow-list.
An empty authority list is never relevant. A tag such as "podping-v0.3"
(which extends the watched tag "podping" but does not start with "pp") is
NOT accepted: extension matching happens only through the literal "pp"
test. -/
theorem is_relevant_iff (op : String) (auths allowed : List String) :
    is_relevant op auths allowed = true ↔
      ((op ∈ WATCHED_OPERATION_IDS ∨ str_startswith op "pp" = true) ∧
       ∃ a rest, auths = a :: rest ∧ a ∈ allowed) := by
  cases auths with
  | nil => simp [is_relevant]
  | cons a rest =>
      simp [is_relevant, List.elem_iff, List.contains]

/-- Counterexample to C4 as stated: "podping-v0.3" extends the watched tag
"podping" and the first authority "podping" is in the allow-list, yet the
filter rejects the event, because the code only tests exact membership in
the watched set and the literal "pp" start, and "podping-v0.3" passes
neither. -/
theorem podping_v03_not_relevant_cex :
    is_relevant "podping-v0.3" ["podping"] get_allowed_accounts = false ∧
    str_startswith "podping-v0.3" "podping" = true ∧
    "podping" ∈ WATCHED_OPERATION_IDS ∧
    "podping" ∈ get_allowed_accounts := by
  refine ⟨by decide, by decide, ?_, ?_⟩ <;>
    simp [WATCHED_OPERATION_IDS, get_allowed_accounts]

/-- C8 (amended): before the k-th consecutive reconnection attempt the
supervisor sleeps 5*k seconds (fixed 5-second step, linearly increasing;
the first three waits are 5 s, 10 s, 15 s) and retries with the start
cursor cleared, i.e. from the fresh current position without reapplying the
lookback window; once the consecutive-error count reaches 5 it gives up
instead of waiting. -/
theorem reconnect_backoff_linear (k : Nat) :
    (k + 1 < max_reconnect_attempts →
        reconnect_step k = .retry (5 * (k + 1)) none) ∧
    (max_reconnect_attempts ≤ k + 1 → reconnect_step k = .failed) ∧
    reconnect_step 0 = .retry 5 none ∧
    reconnect_step 1 = .retry 10 none ∧
    reconnect_step 2 = .retry 15 none := by
  refine ⟨?_, ?_, by decide, by decide, by decide⟩
  · intro h
    simp [reconnect_step, Nat.not_le.mpr h]
  · intro h
    simp [reconnect_step, h]

/-- Counterexample to C8 as stated: the backoff step is hardwired to 5
seconds (there is no errorStep parameter), so the first wait is 5 s, not
the 2 s of the claim's errorStep = 2s instantiation, and the waits 2s, 4s,
6s never occur. -/
theorem reconnect_backoff_step_cex :
    reconnect_step 0 = .retry 5 none ∧
    ReconnectAction.retry 5 none ≠ ReconnectAction.retry 2 none :=
  ⟨by decide, by decide⟩

theorem lookup_eq_none_of_key_ne {u : String} :
    ∀ {l : List (String × Int)}, (∀ p ∈ l, p.1 ≠ u) → List.lookup u l = none := by
  intro l
  induction l with
  | nil => intro _; rfl
  | cons p tl ih =>
      intro h
      obtain ⟨k, v⟩ := p
      have hk : k ≠ u := h (k, v) (List.mem_cons_self _ _)
      have : (u == k) = false := beq_eq_false_iff_ne.mpr (Ne.symm hk)
      simp [List.lookup, this]
      intro a b hab he
      exact h (a, b) (List.mem_cons_of_mem _ hab) he.symm

theorem lookup_cons_self (u : String) (t : Int) (l : List (String × Int)) :
    List.lookup u ((u, t) :: l) = some t := by
  simp [List.lookup]

theorem dictInsert_tail_keys (m : List (String × Int)) (u : String) :
    ∀ p ∈ m.filter (fun p => p.1 != u), p.1 ≠ u := by
  intro p hp
  have h := List.mem_filter.mp hp
  simpa [bne_iff_ne] using h.2

theorem clean_dictInsert_kept (W : Int) (m : List (String × Int)) (u : String)
    (t now : Int) (hk : now - W ≤ t) :
    clean_old_urls W (dictInsert m u t) now
      = (u, t) :: clean_old_urls W (m.filter fun p => p.1 != u) now := by
  have hk2 : now ≤ t + W := by omega
  simp [clean_old_urls, dictInsert, List.filter_cons, hk2]

theorem lookup_clean_dictInsert (W : Int) (m : List (String × Int)) (u : String)
    (t now : Int) :
    List.lookup u (clean_old_urls W (dictInsert m u t) now) = some t ∨
    List.lookup u (clean_old_urls W (dictInsert m u t) now) = none := by
  by_cases hk : now - W ≤ t
  · left
    rw [clean_dictInsert_kept W m u t now hk]
    exact lookup_cons_self u t _
  · right
    have hdrop : clean_old_urls W (dictInsert m u t) now
        = clean_old_urls W (m.filter fun p => p.1 != u) now := by
      have hk2 : t + W < now := by omega
      simp [clean_old_urls, dictInsert, List.filter_cons, hk2]
    rw [hdrop]
    exact lookup_eq_none_of_key_ne fun p hp =>
      dictInsert_tail_keys m u p (List.mem_filter.mp hp).1

theorem admitted_recent (W : Int) (s : DedupState) (u : String) (t : Int)
    (h : (should_process_url W s u t).1 = true) :
    (should_process_url W s u t).2.recent_url_times
      = dictInsert (effective_recent W s t) u t := by
  cases hl : List.lookup u (effective_recent W s t) with
  | none => simp [should_process_url, hl]
  | some v =>
      by_cases hv : t - v < W
      · simp [should_process_url, hl, hv] at h
      · simp [should_process_url, hl, hv]

/-- C1: if a URL was admitted by the dedup check at time t, a repeat attempt
at any t' earlier than t + W is rejected and increments the deduped counter
by exactly one, while a repeat attempt at t' at or after t + W is admitted
again and records t' as the URL's new last-seen time. -/
theorem dedup_window_correct (W : Int) (s : DedupState) (u : String) (t t' : Int)
    (hfirst : (should_process_url W s u t).1 = true) :
    (t' < t + W →
        (should_process_url W (should_process_url W s u t).2 u t').1 = false ∧
        (should_process_url W (should_process_url W s u t).2 u t').2.deduped
          = (should_process_url W s u t).2.deduped + 1) ∧
    (t + W ≤ t' →
        (should_process_url W (should_process_url W s u t).2 u t').1 = true ∧
        List.lookup u
            (should_process_url W (should_process_url W s u t).2
                u t').2.recent_url_times
          = some t') := by
  have hrec : (should_process_url W s u t).2.recent_url_times
      = dictInsert (effective_recent W s t) u t := admitted_recent W s u t hfirst
  set s2 := (should_process_url W s u t).2 with hs2
  constructor
  · intro hlt
    have hE : List.lookup u (effective_recent W s2 t') = some t := by
      unfold effective_recent
      rw [hrec]
      split
      · rw [clean_dictInsert_kept W _ u t t' (by omega)]
        exact lookup_cons_self u t _
      · exact lookup_cons_self u t _
    have hcond : t' - t < W := by omega
    simp [should_process_url, hE, hcond]
  · intro hge
    have hE : List.lookup u (effective_recent W s2 t') = some t ∨
        List.lookup u (effective_recent W s2 t') = none := by
      unfold effective_recent
      rw [hrec]
      split
      · exact lookup_clean_dictInsert W _ u t t'
      · exact Or.inl (lookup_cons_self u t _)
    rcases hE with hE | hE
    · have hcond : ¬ (t' - t < W) := by omega
      simp [should_process_url, hE, hcond, dictInsert, List.lookup]
    · simp [should_process_url, hE, dictInsert, List.lookup]

/-- Witness for C1: admit a fresh URL at time 0 with window 30, repeat at
time 10. -/
theorem dedup_window_correct_witness :
    ((10 : Int) < 0 + 30 →
        (should_process_url 30 (should_process_url 30 ⟨[], 0⟩ "http://a.com/feed" 0).2
            "http://a.com/feed" 10).1 = false ∧
        (should_process_url 30 (should_process_url 30 ⟨[], 0⟩ "http://a.com/feed" 0).2
            "http://a.com/feed" 10).2.deduped
          = (should_process_url 30 ⟨[], 0⟩ "http://a.com/feed" 0).2.deduped + 1) ∧
    ((0 : Int) + 30 ≤ 10 →
        (should_process_url 30 (should_process_url 30 ⟨[], 0⟩ "http://a.com/feed" 0).2
            "http://a.com/feed" 10).1 = true ∧
        List.lookup "http://a.com/feed"
            (should_process_url 30 (should_process_url 30 ⟨[], 0⟩ "http://a.com/feed" 0).2
                "http://a.com/feed" 10).2.recent_url_times = some 10) :=
  dedup_window_correct 30 ⟨[], 0⟩ "http://a.com/feed" 0 10 (by decide)

/-- C9 (amended): when a URL is re-sighted within the dedup window (so the
admission attempt is rejected), the tracking map is left exactly as the
opportunistic cleanup produced it -- in particular the URL's stored
last-seen timestamp keeps its old value and is NOT refreshed to the
re-sighting time. -/
theorem reject_no_refresh (W : Int) (s : DedupState) (u : String) (t : Int)
    (h : (should_process_url W s u t).1 = false) :
    (should_process_url W s u t).2.recent_url_times = effective_recent W s t ∧
    ∃ v, List.lookup u (effective_recent W s t) = some v ∧ t - v < W ∧
      List.lookup u (should_process_url W s u t).2.recent_url_times = some v := by
  cases hl : List.lookup u (effective_recent W s t) with
  | none => simp [should_process_url, hl] at h
  | some v =>
      by_cases hv : t - v < W
      · refine ⟨by simp [should_process_url, hl, hv], v, rfl, hv, ?_⟩
        simp [should_process_url, hl, hv]
      · simp [should_process_url, hl, hv] at h

/-- Witness for C9: reject a re-sighting at time 10 of a URL admitted at
time 0, window 30. -/
theorem reject_no_refresh_witness :
    (should_process_url 30 ⟨[("http://a.com/feed", 0)], 0⟩
        "http://a.com/feed" 10).2.recent_url_times
      = effective_recent 30 ⟨[("http://a.com/feed", 0)], 0⟩ 10 ∧
    ∃ v, List.lookup "http://a.com/feed"
          (effective_recent 30 ⟨[("http://a.com/feed", 0)], 0⟩ 10) = some v ∧
        (10 : Int) - v < 30 ∧
        List.lookup "http://a.com/feed"
            (should_process_url 30 ⟨[("http://a.com/feed", 0)], 0⟩
                "http://a.com/feed" 10).2.recent_url_times = some v :=
  reject_no_refresh 30 ⟨[("http://a.com/feed", 0)], 0⟩ "http://a.com/feed" 10
    (by decide)

/-- Counterexample to C9 as stated: a URL admitted at time 0 and re-sighted
at time 10 (inside the 30-second window) is rejected, but its stored
last-seen timestamp is still 0, not the re-sighting time 10. -/
theorem reject_refresh_cex :
    (should_process_url 30 ⟨[("http://a.com/feed", 0)], 0⟩
        "http://a.com/feed" 10).1 = false ∧
    List.lookup "http://a.com/feed"
        (should_process_url 30 ⟨[("http://a.com/feed", 0)], 0⟩
            "http://a.com/feed" 10).2.recent_url_times
      = some 0 ∧
    some (0 : Int) ≠ some (10 : Int) :=
  ⟨by decide, by decide, by decide⟩

theorem mem_urls_field (o : Option JVal) (u : String) :
    JVal.jstr u ∈ urls_field_candidates o ↔
      (o = some (.jstr u) ∨ ∃ xs, o = some (.jlist xs) ∧ JVal.jstr u ∈ xs) := by
  cases o with
  | none => simp [urls_field_candidates]
  | some v =>
      cases v with
      | jstr s => simp [urls_field_candidates, eq_comm]
      | jlist xs => simp [urls_field_candidates]
      | jother => simp [urls_field_candidates]

theorem mem_url_field (o : Option JVal) (u : String) :
    JVal.jstr u ∈ url_field_candidates o ↔
      (o = some (.jstr u) ∧ u ≠ "") := by
  cases o with
  | none => simp [url_field_candidates]
  | some v =>
      cases v with
      | jstr s =>
          by_cases hs : s = ""
          · simp [url_field_candidates, hs]
            exact fun h => h.symm
          · simp [url_field_candidates, hs, eq_comm]
            rintro rfl
            exact hs
      | jlist xs => simp [url_field_candidates]
      | jother => simp [url_field_candidates]

theorem mem_iris_field (o : Option JVal) (u : String) :
    JVal.jstr u ∈ iris_field_candidates o ↔
      (∃ xs, o = some (.jlist xs) ∧ JVal.jstr u ∈ xs) := by
  cases o with
  | none => simp [iris_field_candidates]
  | some v =>
      cases v with
      | jstr s => simp [iris_field_candidates]
      | jlist xs => simp [iris_field_candidates]
      | jother => simp [iris_field_candidates]

theorem mem_extract (d : List (String × JVal)) (u : String) :
    u ∈ extract_urls d ↔
      (JVal.jstr u ∈ field_candidates d ∧ is_valid_url u = true) := by
  simp only [extract_urls, List.mem_filterMap]
  constructor
  · rintro ⟨v, hv, hfv⟩
    cases v with
    | jstr s =>
        by_cases hval : is_valid_url s
        · simp only [hval, if_true] at hfv
          obtain rfl : s = u := by simpa using hfv
          exact ⟨hv, hval⟩
        · simp [hval] at hfv
    | jlist xs => simp at hfv
    | jother => simp at hfv
  · rintro ⟨hv, hval⟩
    exact ⟨.jstr u, hv, by simp [hval]⟩

/-- C7 (amended): extraction scans the fields "urls", "url" and "iris"; the
"urls" field contributes a single-string value as one candidate or every
string element of a sequence value; the "url" field contributes only a
nonempty single-string value (a sequence there is ignored); the "iris"
field contributes only the string elements of a sequence value (a
single-string iris value is ignored); several fields may contribute in one
payload, and every candidate not beginning with http:// or https:// is
silently dropped. In particular the iris-list/url payload yields both URLs
and the urls-field string "not-a-list-but-a-string" yields nothing because
it is not a valid URL. -/
theorem extract_urls_correct (d : List (String × JVal)) (u : String) :
    (u ∈ extract_urls d ↔
      (is_valid_url u = true ∧
        (List.lookup "urls" d = some (.jstr u) ∨
         (∃ xs, List.lookup "urls" d = some (.jlist xs) ∧ JVal.jstr u ∈ xs) ∨
         (List.lookup "url" d = some (.jstr u) ∧ u ≠ "") ∨
         (∃ xs, List.lookup "iris" d = some (.jlist xs) ∧ JVal.jstr u ∈ xs)))) ∧
    extract_urls [("iris", .jlist [.jstr "http://c.com"]), ("url", .jstr "http://d.com")]
      = ["http://d.com", "http://c.com"] ∧
    extract_urls [("urls", .jstr "not-a-list-but-a-string")] = [] := by
  refine ⟨?_, by decide, by decide⟩
  rw [mem_extract]
  rw [show (JVal.jstr u ∈ field_candidates d) ↔ _ from by
    simp only [field_candidates, List.mem_append]
    rw [mem_urls_field, mem_url_field, mem_iris_field]]
  constructor
  · rintro ⟨hmem, hval⟩
    refine ⟨hval, ?_⟩
    rcases hmem with ((h | h) | h) | h
    · exact Or.inl h
    · exact Or.inr (Or.inl h)
    · exact Or.inr (Or.inr (Or.inl h))
    · exact Or.inr (Or.inr (Or.inr h))
  · rintro ⟨hval, hmem⟩
    refine ⟨?_, hval⟩
    rcases hmem with h | h | h | h
    · exact Or.inl (Or.inl (Or.inl h))
    · exact Or.inl (Or.inl (Or.inr h))
    · exact Or.inl (Or.inr h)
    · exact Or.inr h

/-- Counterexample to C7 as stated: the recognized field "iris" holding the
single string "http://c.com" (a valid URL) contributes nothing -- the code
only splices sequence-valued iris fields, so the claim's "a field whose
value is a single string contributes that string" fails here. -/
theorem iris_string_ignored_cex :
    extract_urls [("iris", .jstr "http://c.com")] = [] ∧
    is_valid_url "http://c.com" = true :=
  ⟨by decide, by decide⟩
